import Mathlib

/-!
Verification of the FuelWise core against its natural-language specification.

The TypeScript source is shallowly embedded in Lean 4:
* JavaScript numbers are idealised as exact rationals (ℚ); `x.toFixed(n)`
  followed by `parseFloat`/`Number` becomes rounding to `n` decimal places.
* A possibly-NaN JavaScript number is `Option ℚ`, with `none` playing NaN
  (and `null`); every NaN comparison is false, as in JavaScript.
* React state updates inside one event handler all read the `data` captured
  by the render closure, so the handlers below are pure functions from the
  pre-event state to the post-event state, with the closure value threaded
  explicitly.
* `setTimeout` chains are modelled on a discrete millisecond clock: a timer
  scheduled for time `t` fires iff `t` is strictly before the release time
  (release/cancel clears every pending timer, fired ones have already run).
* Strings are lists of characters; `parseFloat` is modelled on the character
  alphabet the embedded callers can actually produce (digits, `.` , `,`,
  and a possible leading `-`): longest prefix `[-]digits[.digits]`, NaN when
  that prefix contains no digit.
-/

namespace FuelWise

/-- Rounding to 2 decimal places: `parseFloat(x.toFixed(2))` idealised on ℚ. -/
def round2 (q : ℚ) : ℚ := (round (100 * q) : ℤ) / 100

/-- Rounding to 3 decimal places: `Number(x.toFixed(3))` idealised on ℚ. -/
def round3 (q : ℚ) : ℚ := (round (1000 * q) : ℤ) / 1000

/-- The input record (`FuelData` in `types.ts`). -/
structure FuelData where
  priceOnRoad : ℚ
  priceOffRoad : ℚ
  litersToRefuel : ℚ
  consumptionKmL : ℚ
deriving DecidableEq

/-- The derived record (`CalculationResult` in `types.ts`). -/
structure CalculationResult where
  savingsEuro : ℚ
  extraKms : ℚ
  maxOneWayDistance : ℚ
  costPerKm : ℚ
deriving DecidableEq

/-- Embedding of `calculateSavings` (utils/calculations.ts, lines 3-25):
raw values are computed first and the three benefit metrics are clamped with
`Math.max(0, ·)` only in the returned record; `costPerKm` is not clamped. -/
def calculateSavings (data : FuelData) : CalculationResult :=
  let savingsEuro := (data.priceOnRoad - data.priceOffRoad) * data.litersToRefuel
  let costPerKm := data.priceOffRoad / data.consumptionKmL
  let extraKms := savingsEuro / costPerKm
  let maxOneWayDistance := extraKms / 2
  { savingsEuro := max 0 savingsEuro
    extraKms := max 0 extraKms
    maxOneWayDistance := max 0 maxOneWayDistance
    costPerKm := costPerKm }

/-- Spec-side formula: `savingsEuro = max(0, (priceOnRoad − priceOffRoad) × litersToRefuel)`. -/
def specSavingsEuro (d : FuelData) : ℚ :=
  max 0 ((d.priceOnRoad - d.priceOffRoad) * d.litersToRefuel)

/-- Spec-side formula: `costPerKm = priceOffRoad / consumptionKmL`, unclamped. -/
def specCostPerKm (d : FuelData) : ℚ := d.priceOffRoad / d.consumptionKmL

/-- Spec-side formula: `extraKms = max(0, savingsEuro / costPerKm)`, where
`savingsEuro` is the (already clamped) spec value. -/
def specExtraKms (d : FuelData) : ℚ := max 0 (specSavingsEuro d / specCostPerKm d)

/-- Spec-side formula: `maxOneWayDistance = max(0, extraKms / 2)`, where
`extraKms` is the (already clamped) spec value. -/
def specMaxOneWayDistance (d : FuelData) : ℚ := max 0 (specExtraKms d / 2)

/-- The program's initial state (`useState` in `App`, types.ts lines 169-174),
which is also the spec's end-to-end example input. -/
def initialData : FuelData :=
  { priceOnRoad := 1699/1000
    priceOffRoad := 1599/1000
    litersToRefuel := 25
    consumptionKmL := 18 }

/-- The four editable fields of `FuelData`. -/
inductive Field where
  | priceOnRoad
  | priceOffRoad
  | litersToRefuel
  | consumptionKmL
deriving DecidableEq

/-- A possibly-NaN JavaScript number: `none` plays NaN (and `null`). -/
abbrev JSNum := Option ℚ

def errInvalid : String := "Valore non valido"

def errPositive : String := "Deve essere > 0"

def errCross : String := "Deve essere inferiore al prezzo A"

/-- Embedding of `validate` (types.ts lines 205-217), message part.
Rule 1 (`isNaN(value) || value === null`) then rule 2 (`value <= 0`) are an
if/else-if chain; the cross-field rule is a separate trailing `if` that
overwrites the message. JavaScript comparisons are false on NaN, which the
`match` on the option realises: `none` never satisfies the cross-field test. -/
def validate (field : Field) (value : JSNum) (data : FuelData) : String :=
  let error :=
    match value with
    | none => errInvalid
    | some v => if v ≤ 0 then errPositive else ""
  match value with
  | none => error
  | some v =>
    if field = Field.priceOffRoad ∧ data.priceOnRoad ≤ v ∧ 0 < v then errCross
    else error

/-- The `errors` record held in the `App` component's state
(`ValidationErrors` in types.ts; empty string means valid). -/
structure ValidationErrors where
  priceOnRoad : String
  priceOffRoad : String
  litersToRefuel : String
  consumptionKmL : String
deriving DecidableEq

/-- The initial error state: every field valid. -/
def noErrors : ValidationErrors := ⟨"", "", "", ""⟩

/-- `setErrors(prev => ({ ...prev, [field]: msg }))`. -/
def ValidationErrors.set (e : ValidationErrors) : Field → String → ValidationErrors
  | Field.priceOnRoad, m => { e with priceOnRoad := m }
  | Field.priceOffRoad, m => { e with priceOffRoad := m }
  | Field.litersToRefuel, m => { e with litersToRefuel := m }
  | Field.consumptionKmL, m => { e with consumptionKmL := m }

/-- `setData(prev => ({ ...prev, [field]: val }))`. -/
def FuelData.set (d : FuelData) : Field → ℚ → FuelData
  | Field.priceOnRoad, v => { d with priceOnRoad := v }
  | Field.priceOffRoad, v => { d with priceOffRoad := v }
  | Field.litersToRefuel, v => { d with litersToRefuel := v }
  | Field.consumptionKmL, v => { d with consumptionKmL := v }

/-- The `App` component state touched by the handlers. -/
structure AppState where
  data : FuelData
  errors : ValidationErrors
deriving DecidableEq

/-- Embedding of `handleUpdate` (types.ts lines 219-225). Inside one event
handler invocation, React's `data` is the record captured by the render
closure, so both `validate` calls read the pre-update record `s.data`; only
the `setData` write carries the new value. -/
def handleUpdate (field : Field) (val : ℚ) (s : AppState) : AppState :=
  let newData := s.data.set field val
  let errs1 := s.errors.set field (validate field (some val) s.data)
  let errs2 :=
    if field = Field.priceOnRoad then
      errs1.set Field.priceOffRoad
        (validate Field.priceOffRoad (some s.data.priceOffRoad) s.data)
    else errs1
  { data := newData, errors := errs2 }

/-- One sample of the visualization series. -/
structure ChartPoint where
  totalDist : ℚ
  netGain : ℚ
deriving DecidableEq

/-- The loop `for (let d = 0; d <= maxRange; d += stepVal)` of the `chartData`
memo, as a recursion on the exact rational loop variable. -/
def chartLoop (breakEvenTotal maxRange stepVal : ℚ) (hstep : 0 < stepVal) (d : ℚ) :
    List ChartPoint :=
  if hd : d ≤ maxRange then
    { totalDist := round2 d, netGain := round2 (breakEvenTotal - d) } ::
      chartLoop breakEvenTotal maxRange stepVal hstep (d + stepVal)
  else []
termination_by (⌊(maxRange - d) / stepVal⌋ + 1).toNat
decreasing_by
  have hx : (0:ℚ) ≤ (maxRange - d) / stepVal := div_nonneg (by linarith) hstep.le
  have h0 : (0:ℤ) ≤ ⌊(maxRange - d) / stepVal⌋ := Int.floor_nonneg.mpr hx
  have heq : (maxRange - (d + stepVal)) / stepVal = (maxRange - d) / stepVal - 1 := by
    field_simp
    ring
  rw [heq, Int.floor_sub_one]
  omega

/-- Embedding of the `chartData` memo (types.ts lines 188-203): empty when
`hasErrors` holds (the spec's validity flag is the negation of `hasErrors`),
otherwise the sampled series. `stepVal > 0` always holds because
`maxRange = max(breakEven × 1.3, 5) ≥ 5`. -/
def chartData (hasErrors : Bool) (results : CalculationResult) : List ChartPoint :=
  if hasErrors then []
  else
    let breakEvenTotal := results.extraKms
    let maxRange := max (breakEvenTotal * (13/10)) 5
    let stepVal := maxRange / 100
    chartLoop breakEvenTotal maxRange stepVal
      (div_pos (lt_of_lt_of_le (by norm_num) (le_max_right _ _)) (by norm_num)) 0

/-- Embedding of `performUpdate` inside `startAdjusting` (types.ts lines
92-95): the value reported to the owner via `onChange`, computed from the
latest externally owned value `current` and the signed step `d`. -/
def performUpdate (current d : ℚ) : ℚ := max 0 (round3 (current + d))

/-- The values successively reported during one press: each emission applies
`performUpdate` to the latest externally owned value (`valueRef.current`),
which the owner has set to the previously reported value. -/
def reportedValue (v0 d : ℚ) : ℕ → ℚ
  | 0 => v0
  | n + 1 => performUpdate (reportedValue v0 d n) d

/-- The interval update of the `run` callback (types.ts lines 103-111):
after the counter reaches 10 the interval becomes 40 ms, after 30 it becomes
15 ms, otherwise it is unchanged. -/
def nextSpeed (c speed : ℕ) : ℕ :=
  if c = 10 then 40 else if c = 30 then 15 else speed

/-- The `run` timer chain of `startAdjusting` (types.ts lines 103-113) on a
discrete millisecond clock: a timer due at `fireTime` fires iff
`fireTime < releaseT` (otherwise `stopAdjusting` has already cleared it);
each fire emits one delta, increments the counter, updates the speed and
schedules the next fire `speed` ms later. Returns the emission times. -/
def runLoop (releaseT fireTime count speed : ℕ) (hs : 0 < speed) : List ℕ :=
  if h : fireTime < releaseT then
    fireTime :: runLoop releaseT (fireTime + nextSpeed (count+1) speed) (count+1)
      (nextSpeed (count+1) speed) (by unfold nextSpeed; split_ifs <;> omega)
  else []
termination_by releaseT - fireTime
decreasing_by
  have hp : 0 < nextSpeed (count+1) speed := by unfold nextSpeed; split_ifs <;> omega
  omega

/-- All emission times of one press of `startAdjusting` (types.ts lines
88-115) pressed at `pressT` and released at `releaseT`: one immediate
emission at press time, then — if the 400 ms initial delay timer survives
until its due time — the `run` chain starting 80 ms after that. -/
def emissions (pressT releaseT : ℕ) : List ℕ :=
  pressT ::
    (if pressT + 400 < releaseT then
      runLoop releaseT (pressT + 400 + 80) 0 80 (by norm_num)
    else [])

/-- Value of a digit string, as JavaScript would accumulate it. -/
def digitsVal (cs : List Char) : ℕ :=
  cs.foldl (fun acc c => 10 * acc + (c.toNat - 48)) 0

/-- `parseFloat` on an unsigned string over the callers' alphabet
(digits, `.` , `,`): longest prefix `digits[.digits]`; NaN (`none`) when that
prefix holds no digit, as for `""`, `"."` or `",…"`. -/
def parseCore (cs : List Char) : Option ℚ :=
  let intPart := cs.takeWhile Char.isDigit
  let rest := cs.drop intPart.length
  let fracPart :=
    match rest with
    | c :: r => if c = '.' then r.takeWhile Char.isDigit else []
    | [] => []
  if intPart.isEmpty ∧ fracPart.isEmpty then none
  else some ((digitsVal intPart : ℚ) + (digitsVal fracPart : ℚ) / 10 ^ fracPart.length)

/-- `parseFloat` with the optional leading minus the input pattern allows. -/
def jsParseFloat (cs : List Char) : Option ℚ :=
  match cs with
  | '-' :: r => (parseCore r).map (fun q => -q)
  | _ => parseCore cs

/-- Characters kept by `priceStr.replace(/[^0-9,.]/g, '')`. -/
def keepNumChar (c : Char) : Bool := c.isDigit || c = ',' || c = '.'

/-- JavaScript `s.replace(',', '.')`: only the first comma is replaced. -/
def replaceFirstComma : List Char → List Char
  | [] => []
  | c :: r => if c = ',' then '.' :: r else c :: replaceFirstComma r

/-- JavaScript `s.trim()`. -/
def jsTrim (cs : List Char) : List Char :=
  ((cs.dropWhile fun c => c.isWhitespace).reverse.dropWhile fun c => c.isWhitespace).reverse

/-- The cleaning-and-parsing pipeline of `applyProvincialPrice`
(types.ts lines 228-229): strip to digits/comma/dot, first comma to dot,
trim, `parseFloat`. -/
def cleanedParse (priceStr : List Char) : Option ℚ :=
  jsParseFloat (jsTrim (replaceFirstComma (priceStr.filter keepNumChar)))

/-- Embedding of `applyProvincialPrice` (types.ts lines 227-239): on parse
success overwrite both prices with the parsed value and clear both price
errors; on parse failure (`isNaN`) change nothing. -/
def applyProvincialPrice (priceStr : List Char) (s : AppState) : AppState :=
  match cleanedParse priceStr with
  | none => s
  | some num =>
    { data := { s.data with priceOnRoad := num, priceOffRoad := num }
      errors := { s.errors with priceOnRoad := "", priceOffRoad := "" } }

/-- The test `/^-?[0-9]*[.,]?[0-9]*$/.test(original)` of `handleInputChange`. -/
def matchesNumPattern (cs : List Char) : Bool :=
  let cs1 :=
    match cs with
    | '-' :: r => r
    | _ => cs
  let rest1 := cs1.dropWhile Char.isDigit
  let rest2 :=
    match rest1 with
    | c :: r => if c = '.' ∨ c = ',' then r else rest1
    | [] => []
  (rest2.dropWhile Char.isDigit).isEmpty

/-- Embedding of `handleInputChange` (types.ts lines 66-79): from the
keystroke's resulting text `original` and the currently displayed text
`current`, the pair of the text displayed afterwards and the value passed to
`onChange` (`none` = `onChange` not invoked). On a pattern mismatch the whole
body is skipped. -/
def handleInputChange (original current : List Char) : List Char × Option ℚ :=
  let normalized := replaceFirstComma original
  if matchesNumPattern original then
    match jsParseFloat normalized with
    | some parsed => (original, some parsed)
    | none =>
      if normalized = [] ∨ normalized = ['-'] ∨ normalized = ['.'] then
        (original, some 0)
      else (original, none)
  else (current, none)

/-- Example price string `"€ 1,599 /L"` for the provincial-price apply. -/
def samplePriceStr : List Char :=
  '€' :: ' ' :: '1' :: ',' :: '5' :: '9' :: '9' :: ' ' :: '/' :: 'L' :: []

/-- An app state with a distinct message in every error slot, to observe
which slots `applyProvincialPrice` touches. -/
def markedState : AppState :=
  { data := initialData
    errors := ⟨errInvalid, errPositive, errCross, "x"⟩ }

/-! ### Helper lemmas -/

lemma max_zero_div_of_pos (x c : ℚ) (hc : 0 < c) :
    max 0 (x / c) = max 0 (max 0 x / c) := by
  rcases le_total x 0 with hx | hx
  · have h1 : x / c ≤ 0 := by
      rw [div_nonpos_iff]; exact Or.inr ⟨hx, hc.le⟩
    rw [max_eq_left h1, max_eq_left hx, zero_div, max_self]
  · rw [max_eq_right hx]

lemma max_zero_half (e : ℚ) : max 0 (e / 2) = max 0 e / 2 := by
  rcases le_total e 0 with he | he
  · rw [max_eq_left, max_eq_left] <;> linarith
  · rw [max_eq_right, max_eq_right] <;> linarith

lemma round2_eq (q : ℚ) (m : ℤ) (h1 : (m:ℚ) ≤ 100*q + 1/2) (h2 : 100*q + 1/2 < m + 1) :
    round2 q = (m:ℚ)/100 := by
  unfold round2
  rw [round_eq, Int.floor_eq_iff.mpr ⟨h1, by exact_mod_cast h2⟩]

lemma round3_eq (q : ℚ) (m : ℤ) (h1 : (m:ℚ) ≤ 1000*q + 1/2) (h2 : 1000*q + 1/2 < m + 1) :
    round3 q = (m:ℚ)/1000 := by
  unfold round3
  rw [round_eq, Int.floor_eq_iff.mpr ⟨h1, by exact_mod_cast h2⟩]

lemma round2_zero : round2 0 = 0 := by
  simp [round2]

lemma calculateSavings_initialData :
    calculateSavings initialData =
      { savingsEuro := 5/2, extraKms := 15000/533, maxOneWayDistance := 7500/533,
        costPerKm := 533/6000 } := by
  norm_num [calculateSavings, initialData, max_def, CalculationResult.mk.injEq]

lemma validate_none (f : Field) (d : FuelData) : validate f none d = errInvalid := rfl

lemma validate_nonpos (f : Field) (d : FuelData) (v : ℚ) (hv : v ≤ 0) :
    validate f (some v) d = errPositive := by
  unfold validate
  dsimp only
  rw [if_neg (by rintro ⟨-, -, h⟩; exact absurd hv h.not_le), if_pos hv]

lemma validate_pos_other (f : Field) (d : FuelData) (v : ℚ) (hv : 0 < v)
    (hf : f ≠ Field.priceOffRoad) : validate f (some v) d = "" := by
  unfold validate
  dsimp only
  rw [if_neg (by rintro ⟨h, -, -⟩; exact hf h), if_neg hv.not_le]

lemma validate_priceOffRoad_cross (d : FuelData) (v : ℚ) (hv : 0 < v)
    (hge : d.priceOnRoad ≤ v) : validate Field.priceOffRoad (some v) d = errCross := by
  unfold validate
  dsimp only
  rw [if_pos ⟨rfl, hge, hv⟩]

lemma validate_priceOffRoad_ok (d : FuelData) (v : ℚ) (hv : 0 < v)
    (hlt : v < d.priceOnRoad) : validate Field.priceOffRoad (some v) d = "" := by
  unfold validate
  dsimp only
  rw [if_neg (by rintro ⟨-, h, -⟩; exact absurd h hlt.not_le), if_neg hv.not_le]

lemma chartLoop_eq (be mr st : ℚ) (hst : 0 < st) (hmr : mr = 100 * st) :
    ∀ (n j : ℕ) (d : ℚ), j + n = 100 → d = j * st →
      chartLoop be mr st hst d =
        (List.range (n + 1)).map (fun k =>
          { totalDist := round2 ((j + k) * st), netGain := round2 (be - (j + k) * st) }) := by
  intro n
  induction n with
  | zero =>
    intro j d hj hd
    have hj100 : j = 100 := by omega
    subst hj100 hmr hd
    rw [chartLoop, dif_pos (by norm_num)]
    rw [chartLoop, dif_neg (by push_cast; nlinarith)]
    simp [List.range_succ]
  | succ n ih =>
    intro j d hj hd
    have hjle : (j:ℚ) < 100 := by exact_mod_cast (by omega : j < 100)
    subst hd
    rw [chartLoop, dif_pos (by subst hmr; nlinarith)]
    have hnext : (j:ℚ) * st + st = ((j+1:ℕ):ℚ) * st := by push_cast; ring
    rw [hnext, ih (j+1) _ (by omega) rfl]
    conv_rhs => rw [List.range_succ_eq_map]
    simp only [List.map_cons, List.map_map]
    congr 1
    · push_cast
      norm_num
    · apply List.map_congr_left
      intro k _
      simp only [Function.comp]
      congr 2 <;> push_cast <;> ring

lemma nextSpeed_pos (c speed : ℕ) (hs : 0 < speed) : 0 < nextSpeed c speed := by
  unfold nextSpeed; split_ifs <;> omega

lemma runLoop_mem_lt (releaseT : ℕ) :
    ∀ (n fireTime count speed : ℕ) (hs : 0 < speed), releaseT - fireTime ≤ n →
      ∀ t ∈ runLoop releaseT fireTime count speed hs, t < releaseT := by
  intro n
  induction n with
  | zero =>
    intro fireTime count speed hs hn t ht
    rw [runLoop, dif_neg (by omega)] at ht
    exact absurd ht (List.not_mem_nil _)
  | succ n ih =>
    intro fireTime count speed hs hn t ht
    by_cases h : fireTime < releaseT
    · rw [runLoop, dif_pos h] at ht
      rcases List.mem_cons.mp ht with rfl | ht'
      · exact h
      · exact ih _ _ _ _ (by have := nextSpeed_pos (count+1) speed hs; omega) t ht'
    · rw [runLoop, dif_neg h] at ht
      exact absurd ht (List.not_mem_nil _)

lemma cleanedParse_samplePriceStr : cleanedParse samplePriceStr = some (1599/1000) := by
  have h1 : cleanedParse samplePriceStr =
      some (((1:ℕ):ℚ) + ((599:ℕ):ℚ) / 10 ^ 3) := rfl
  rw [h1]
  congr 1
  push_cast
  norm_num

/-! ### Claim theorems -/

/-- C1: on every FuelData record (positive fields, as the data model demands),
`calculateSavings` returns exactly the spec's formulas: clamped savings,
unclamped costPerKm, clamped `extraKms = max(0, savingsEuro / costPerKm)` and
clamped `maxOneWayDistance = max(0, extraKms / 2)`. -/
theorem calculateSavings_eq_spec (d : FuelData)
    (h1 : 0 < d.priceOnRoad) (h2 : 0 < d.priceOffRoad)
    (h3 : 0 < d.litersToRefuel) (h4 : 0 < d.consumptionKmL) :
    calculateSavings d =
      { savingsEuro := specSavingsEuro d
        extraKms := specExtraKms d
        maxOneWayDistance := specMaxOneWayDistance d
        costPerKm := specCostPerKm d } := by
  have hc : 0 < d.priceOffRoad / d.consumptionKmL := div_pos h2 h4
  simp only [calculateSavings, specSavingsEuro, specExtraKms, specMaxOneWayDistance,
    specCostPerKm, CalculationResult.mk.injEq]
  refine ⟨trivial, (max_zero_div_of_pos _ _ hc), ?_, trivial⟩
  rw [← max_zero_div_of_pos _ _ hc, max_zero_half, max_zero_half,
    max_eq_right (le_max_left _ _)]

/-- Witness for C1 at the program's initial data. -/
theorem calculateSavings_eq_spec_witness :
    ((0:ℚ) < initialData.priceOnRoad ∧ (0:ℚ) < initialData.priceOffRoad ∧
      (0:ℚ) < initialData.litersToRefuel ∧ (0:ℚ) < initialData.consumptionKmL) ∧
    calculateSavings initialData =
      { savingsEuro := specSavingsEuro initialData
        extraKms := specExtraKms initialData
        maxOneWayDistance := specMaxOneWayDistance initialData
        costPerKm := specCostPerKm initialData } :=
  ⟨⟨by norm_num [initialData], by norm_num [initialData], by norm_num [initialData],
      by norm_num [initialData]⟩,
    calculateSavings_eq_spec initialData (by norm_num [initialData])
      (by norm_num [initialData]) (by norm_num [initialData]) (by norm_num [initialData])⟩

/-- C5: with `priceOnRoad > priceOffRoad > 0`, positive liters and consumption,
all three benefit metrics are nonnegative and `maxOneWayDistance = extraKms/2`
exactly; with `priceOnRoad ≤ priceOffRoad` (other fields positive),
`savingsEuro = 0` and `extraKms = 0`. -/
theorem calculateSavings_sign_properties (d : FuelData) :
    (d.priceOffRoad < d.priceOnRoad → 0 < d.priceOffRoad → 0 < d.litersToRefuel →
      0 < d.consumptionKmL →
      0 ≤ (calculateSavings d).savingsEuro ∧ 0 ≤ (calculateSavings d).extraKms ∧
      0 ≤ (calculateSavings d).maxOneWayDistance ∧
      (calculateSavings d).maxOneWayDistance = (calculateSavings d).extraKms / 2) ∧
    (d.priceOnRoad ≤ d.priceOffRoad → 0 < d.priceOffRoad → 0 < d.litersToRefuel →
      0 < d.consumptionKmL →
      (calculateSavings d).savingsEuro = 0 ∧ (calculateSavings d).extraKms = 0) := by
  constructor
  · intro _ _ _ _
    refine ⟨le_max_left _ _, le_max_left _ _, le_max_left _ _, ?_⟩
    simp only [calculateSavings]
    exact max_zero_half _
  · intro hle h2 h3 h4
    have hraw : (d.priceOnRoad - d.priceOffRoad) * d.litersToRefuel ≤ 0 := by nlinarith
    have hc : 0 < d.priceOffRoad / d.consumptionKmL := div_pos h2 h4
    have hdiv : (d.priceOnRoad - d.priceOffRoad) * d.litersToRefuel /
        (d.priceOffRoad / d.consumptionKmL) ≤ 0 := by
      rw [div_nonpos_iff]; exact Or.inr ⟨hraw, hc.le⟩
    simp only [calculateSavings]
    exact ⟨max_eq_left hraw, max_eq_left hdiv⟩

/-- Witness for C5: the first part at the initial data
(1.699 > 1.599 > 0), the second part at an equal-prices record. -/
theorem calculateSavings_sign_properties_witness :
    ((calculateSavings initialData).maxOneWayDistance =
      (calculateSavings initialData).extraKms / 2) ∧
    (calculateSavings ⟨3/2, 3/2, 25, 18⟩).savingsEuro = 0 ∧
    (calculateSavings ⟨3/2, 3/2, 25, 18⟩).extraKms = 0 :=
  ⟨((calculateSavings_sign_properties initialData).1 (by norm_num [initialData])
      (by norm_num [initialData]) (by norm_num [initialData])
      (by norm_num [initialData])).2.2.2,
    ((calculateSavings_sign_properties ⟨3/2, 3/2, 25, 18⟩).2 (by norm_num) (by norm_num)
      (by norm_num) (by norm_num)).1,
    ((calculateSavings_sign_properties ⟨3/2, 3/2, 25, 18⟩).2 (by norm_num) (by norm_num)
      (by norm_num) (by norm_num)).2⟩

/-- C8 counterexample: at the example input the code's `extraKms` equals
15000/533 = 28.1425…, which to two decimal places is 28.14, not the claimed
28.15. -/
theorem example_extraKms_not_28_15 :
    (calculateSavings initialData).extraKms = 15000/533 ∧
    round2 ((calculateSavings initialData).extraKms) = 2814/100 ∧
    round2 ((calculateSavings initialData).extraKms) ≠ 2815/100 := by
  have h := calculateSavings_initialData
  rw [h]
  have hr : round2 ((15000:ℚ)/533) = ((2814:ℤ):ℚ)/100 :=
    round2_eq _ 2814 (by norm_num) (by norm_num)
  refine ⟨rfl, ?_, ?_⟩ <;> rw [hr] <;> norm_num

/-- C8 amended: at the example (= initial) input, `savingsEuro = 2.50` and
`costPerKm = 1.599/18` exactly, `extraKms ≈ 28.14` and
`maxOneWayDistance ≈ 14.07` (both to two decimal places). -/
theorem example_end_to_end :
    (calculateSavings initialData).savingsEuro = 5/2 ∧
    (calculateSavings initialData).costPerKm = 1599/1000/18 ∧
    round2 ((calculateSavings initialData).extraKms) = 2814/100 ∧
    round2 ((calculateSavings initialData).maxOneWayDistance) = 1407/100 := by
  rw [calculateSavings_initialData]
  have hr1 : round2 ((15000:ℚ)/533) = ((2814:ℤ):ℚ)/100 :=
    round2_eq _ 2814 (by norm_num) (by norm_num)
  have hr2 : round2 ((7500:ℚ)/533) = ((1407:ℤ):ℚ)/100 :=
    round2_eq _ 1407 (by norm_num) (by norm_num)
  refine ⟨rfl, by norm_num, by rw [hr1]; norm_num, by rw [hr2]; norm_num⟩

/-- C3: `validate` returns the invalid-value error on NaN; otherwise the
must-be-positive error on values ≤ 0; the cross-field error for
`priceOffRoad` when the value is positive and ≥ the record's current
`priceOnRoad`; and no error otherwise — in particular, with
`priceOnRoad = 2.0`, `priceOffRoad` validates cleanly for `0 < x < 2` and
gives the cross-field error for `x ≥ 2`. -/
theorem validate_spec :
    (∀ f d, validate f none d = errInvalid) ∧
    (∀ f d (v : ℚ), v ≤ 0 → validate f (some v) d = errPositive) ∧
    (∀ f d (v : ℚ), 0 < v → f ≠ Field.priceOffRoad → validate f (some v) d = "") ∧
    (∀ d (v : ℚ), 0 < v → d.priceOnRoad ≤ v →
      validate Field.priceOffRoad (some v) d = errCross) ∧
    (∀ d (v : ℚ), 0 < v → v < d.priceOnRoad →
      validate Field.priceOffRoad (some v) d = "") ∧
    (∀ d (x : ℚ), d.priceOnRoad = 2 → 0 < x → x < 2 →
      validate Field.priceOffRoad (some x) d = "") ∧
    (∀ d (x : ℚ), d.priceOnRoad = 2 → 2 ≤ x →
      validate Field.priceOffRoad (some x) d = errCross) :=
  ⟨validate_none,
    fun f d v hv => validate_nonpos f d v hv,
    fun f d v hv hf => validate_pos_other f d v hv hf,
    fun d v hv hge => validate_priceOffRoad_cross d v hv hge,
    fun d v hv hlt => validate_priceOffRoad_ok d v hv hlt,
    fun d x h2 hx hlt => validate_priceOffRoad_ok d x hx (h2 ▸ hlt),
    fun d x h2 hge => validate_priceOffRoad_cross d x
      (lt_of_lt_of_le (by norm_num) hge) (h2 ▸ hge)⟩

/-- Witness for C3 at concrete inputs (priceOnRoad = 2). -/
theorem validate_spec_witness :
    validate Field.priceOffRoad (some 3) ⟨2, 3/2, 25, 18⟩ = errCross ∧
    validate Field.priceOffRoad (some 1) ⟨2, 3/2, 25, 18⟩ = "" ∧
    validate Field.litersToRefuel (some (-1)) ⟨2, 3/2, 25, 18⟩ = errPositive ∧
    validate Field.consumptionKmL none ⟨2, 3/2, 25, 18⟩ = errInvalid :=
  ⟨validate_spec.2.2.2.2.2.2 ⟨2, 3/2, 25, 18⟩ 3 rfl (by norm_num),
    validate_spec.2.2.2.2.2.1 ⟨2, 3/2, 25, 18⟩ 1 rfl (by norm_num) (by norm_num),
    validate_spec.2.1 Field.litersToRefuel ⟨2, 3/2, 25, 18⟩ (-1) (by norm_num),
    validate_spec.1 Field.consumptionKmL ⟨2, 3/2, 25, 18⟩⟩

/-- C2 (code bug): editing `priceOnRoad` down to 1.0 while
`priceOffRoad = 1.5` leaves the `priceOffRoad` error empty, although the
claim requires the cross-field error (1.5 > 0 and 1.5 ≥ 1.0): the
re-validation compares against the stale closure value 2.0, not against the
newly entered price. -/
theorem handleUpdate_stale_revalidation :
    (handleUpdate Field.priceOnRoad 1 ⟨⟨2, 3/2, 25, 18⟩, noErrors⟩).data.priceOnRoad = 1 ∧
    (handleUpdate Field.priceOnRoad 1 ⟨⟨2, 3/2, 25, 18⟩, noErrors⟩).data.priceOffRoad = 3/2 ∧
    ((0:ℚ) < 3/2 ∧ (1:ℚ) ≤ 3/2) ∧
    (handleUpdate Field.priceOnRoad 1 ⟨⟨2, 3/2, 25, 18⟩, noErrors⟩).errors.priceOffRoad = "" ∧
    "" ≠ errCross := by
  have e1 : validate Field.priceOnRoad (some 1) ⟨2, 3/2, 25, 18⟩ = "" :=
    validate_pos_other _ _ _ (by norm_num) (by decide)
  have e2 : validate Field.priceOffRoad (some (3/2)) ⟨2, 3/2, 25, 18⟩ = "" :=
    validate_priceOffRoad_ok _ _ (by norm_num) (by norm_num)
  refine ⟨rfl, rfl, ⟨by norm_num, by norm_num⟩, ?_, by decide⟩
  simp [handleUpdate, FuelData.set, ValidationErrors.set, noErrors, e1, e2]

/-- C4: the chart series is empty exactly when the validity flag is false
(`hasErrors = true`); when valid it is one point
`{round2 d, round2(breakEven − d)}` per distance `d = k · stepVal`,
`k = 0..100`, with `stepVal = max(breakEven × 1.3, 5)/100` — hence non-empty,
of length 101, with first point at `totalDist = 0`. -/
theorem chartData_spec (r : CalculationResult) :
    chartData true r = [] ∧
    chartData false r =
      (List.range 101).map (fun k =>
        { totalDist := round2 (k * (max (r.extraKms * (13/10)) 5 / 100)),
          netGain := round2 (r.extraKms - k * (max (r.extraKms * (13/10)) 5 / 100)) }) ∧
    chartData false r ≠ [] ∧
    (chartData false r).length = 101 ∧
    (chartData false r).head? = some { totalDist := 0, netGain := round2 r.extraKms } := by
  have hmain : chartData false r =
      (List.range 101).map (fun k =>
        { totalDist := round2 (k * (max (r.extraKms * (13/10)) 5 / 100)),
          netGain := round2 (r.extraKms - k * (max (r.extraKms * (13/10)) 5 / 100)) }) := by
    unfold chartData
    rw [if_neg (by simp)]
    dsimp only
    rw [chartLoop_eq _ _ _ _ (by ring) 100 0 0 (by omega) (by norm_num)]
    apply List.map_congr_left
    intro k _
    push_cast
    norm_num
  refine ⟨rfl, hmain, ?_, ?_, ?_⟩
  · rw [hmain]; simp
  · rw [hmain]; simp
  · rw [hmain]
    rw [List.range_succ_eq_map]
    simp [round2_zero]

/-- C6: a press at t = 0 held to t = 1000 ms emits exactly 8 deltas — one
immediate at press time, then at 480, 560, …, 960 ms in 80 ms steps, all
before the 10-repeat speed-up; and for arbitrary press/release times every
emission is at the press instant or strictly before the release instant, so
releasing or cancelling prevents every not-yet-fired scheduled emission. -/
theorem emissions_spec :
    emissions 0 1000 = [0, 480, 560, 640, 720, 800, 880, 960] ∧
    (emissions 0 1000).length = 8 ∧
    (∀ pressT releaseT t, t ∈ emissions pressT releaseT → t = pressT ∨ t < releaseT) := by
  refine ⟨by simp [emissions, runLoop, nextSpeed],
    by simp [emissions, runLoop, nextSpeed], ?_⟩
  intro pressT releaseT t ht
  rcases List.mem_cons.mp ht with rfl | ht'
  · exact Or.inl rfl
  · right
    rcases Classical.em (pressT + 400 < releaseT) with h | h
    · rw [if_pos h] at ht'
      exact runLoop_mem_lt releaseT (releaseT - (pressT + 400 + 80)) _ _ _ _ le_rfl t ht'
    · rw [if_neg h] at ht'
      exact absurd ht' (List.not_mem_nil _)

/-- Witness for C6: the 480 ms emission of the 1000 ms press is before the
release instant. -/
theorem emissions_spec_witness :
    480 ∈ emissions 0 1000 ∧ ((480:ℕ) = 0 ∨ 480 < 1000) := by
  have h := emissions_spec
  have hm : (480:ℕ) ∈ emissions 0 1000 := by rw [h.1]; simp
  exact ⟨hm, h.2.2 0 1000 480 hm⟩

/-- C7: every value the repeat-press controller reports — the immediate
emission and each timed repeat — is the current value plus the delta,
rounded to 3 decimals and clamped at 0, hence never negative. -/
theorem performUpdate_spec :
    ∀ (v d : ℚ), performUpdate v d = max 0 (round3 (v + d)) ∧
      0 ≤ performUpdate v d ∧
      ∀ n : ℕ, 0 ≤ reportedValue v d (n + 1) :=
  fun v d => ⟨rfl, le_max_left _ _, fun n => le_max_left _ _⟩

/-- C9: `applyProvincialPrice` leaves the state unchanged when the cleaned
string does not parse; when it parses to `q` it sets both prices to `q`,
clears both price errors, and leaves `litersToRefuel`, `consumptionKmL` and
their errors untouched. -/
theorem applyProvincialPrice_spec (cs : List Char) (s : AppState) :
    (cleanedParse cs = none → applyProvincialPrice cs s = s) ∧
    (∀ q : ℚ, cleanedParse cs = some q →
      (applyProvincialPrice cs s).data.priceOnRoad = q ∧
      (applyProvincialPrice cs s).data.priceOffRoad = q ∧
      (applyProvincialPrice cs s).data.litersToRefuel = s.data.litersToRefuel ∧
      (applyProvincialPrice cs s).data.consumptionKmL = s.data.consumptionKmL ∧
      (applyProvincialPrice cs s).errors.priceOnRoad = "" ∧
      (applyProvincialPrice cs s).errors.priceOffRoad = "" ∧
      (applyProvincialPrice cs s).errors.litersToRefuel = s.errors.litersToRefuel ∧
      (applyProvincialPrice cs s).errors.consumptionKmL = s.errors.consumptionKmL) := by
  constructor
  · intro h
    unfold applyProvincialPrice
    rw [h]
  · intro q h
    unfold applyProvincialPrice
    rw [h]
    exact ⟨rfl, rfl, rfl, rfl, rfl, rfl, rfl, rfl⟩

/-- Witness for C9: applying `"€ 1,599 /L"` to a state with a marked message
in every error slot sets both prices to 1.599, clears the price errors and
keeps the other fields and errors. -/
theorem applyProvincialPrice_spec_witness :
    cleanedParse samplePriceStr = some (1599/1000) ∧
    (applyProvincialPrice samplePriceStr markedState).data.priceOnRoad = 1599/1000 ∧
    (applyProvincialPrice samplePriceStr markedState).data.litersToRefuel =
      markedState.data.litersToRefuel ∧
    (applyProvincialPrice samplePriceStr markedState).errors.priceOffRoad = "" ∧
    (applyProvincialPrice samplePriceStr markedState).errors.litersToRefuel =
      markedState.errors.litersToRefuel :=
  have hp := cleanedParse_samplePriceStr
  have h := (applyProvincialPrice_spec samplePriceStr markedState).2 (1599/1000) hp
  ⟨hp, h.1, h.2.2.1, h.2.2.2.2.2.1, h.2.2.2.2.2.2.1⟩

/-- C10: a keystroke whose resulting text fails the numeric pattern changes
nothing: the displayed text stays as it was and `onChange` is not invoked. -/
theorem handleInputChange_frame (original current : List Char)
    (h : matchesNumPattern original = false) :
    handleInputChange original current = (current, none) := by
  simp [handleInputChange, h]

/-- Witness for C10: the text `"1.2.3"` fails the pattern and the handler
keeps the previous text `"1.2"` and emits nothing. -/
theorem handleInputChange_frame_witness :
    matchesNumPattern ('1' :: '.' :: '2' :: '.' :: '3' :: []) = false ∧
    handleInputChange ('1' :: '.' :: '2' :: '.' :: '3' :: []) ('1' :: '.' :: '2' :: []) =
      ('1' :: '.' :: '2' :: [], none) :=
  ⟨rfl, handleInputChange_frame _ _ rfl⟩

end FuelWise
